import Mathlib

/-!
Shallow embedding of the `mifare-rs` crate (files `src/numerics.rs` and
`src/lib.rs`) and proofs about its typed address model and its wire
protocol layer.

Machine integers: Rust `u8` values are modelled as `Nat`; a cast
`(x : u16) as u8` is modelled as `x % 256`, and `u8` addition that the
source performs without an overflow check is modelled as wrapping
(`(a + b) % 256`, the release-mode semantics).  `u8` subtraction and
division in the source never underflow, so plain `Nat` subtraction and
division coincide with them on the values involved.
-/

namespace Mifare

/-- Embeds the trait `TagCapacity` (numerics.rs 4-34): a compile-time
marker with exactly two instances, `Cap1K` (`bytes() = 1024`) and
`Cap4K` (`bytes() = 4096`). -/
inductive TagCapacity where
| cap1K : TagCapacity
| cap4K : TagCapacity
deriving DecidableEq, Repr

/-- `TagCapacity::bytes` for the two impls (numerics.rs 21-23, 31-33). -/
def TagCapacity.bytes : TagCapacity → Nat
| .cap1K => 1024
| .cap4K => 4096

/-- `TagCapacity::max_sectors` (numerics.rs 7-9):
`(Self::bytes() / 64) as u8`; the `as u8` cast is `% 256`. -/
def TagCapacity.max_sectors (c : TagCapacity) : Nat :=
(c.bytes / 64) % 256

/-- `TagCapacity::max_blocks` (numerics.rs 11-13):
`(Self::bytes() / 16) as u8`; the `as u8` cast is `% 256`. -/
def TagCapacity.max_blocks (c : TagCapacity) : Nat :=
(c.bytes / 16) % 256

/-- `SectorNumber<Cap>` (numerics.rs 38): a `u8` plus a phantom
capacity, modelled as a capacity-indexed wrapper around `Nat`. -/
structure SectorNumber (c : TagCapacity) where
val : Nat
deriving DecidableEq, Repr

/-- `SectorNumber::new` (numerics.rs 42-48). -/
def SectorNumber.new (c : TagCapacity) (sector_number : Nat) :
    Option (SectorNumber c) :=
if sector_number < c.max_sectors then some ⟨sector_number⟩ else none

/-- `impl From<SectorNumber1K> for SectorNumber4K` (numerics.rs 69-73):
capacity widening, `SectorNumber::raw(sector_number.0)`. -/
def SectorNumber.widen (sn : SectorNumber .cap1K) : SectorNumber .cap4K :=
⟨sn.val⟩

/-- `BlockOffset` (numerics.rs 77): offset within a sector. -/
structure BlockOffset where
val : Nat
deriving DecidableEq, Repr

/-- `BlockOffset::new` (numerics.rs 81-87). -/
def BlockOffset.new (block_offset : Nat) : Option BlockOffset :=
if block_offset < 3 then some ⟨block_offset⟩ else none

/-- `AbsoluteBlockOffset<Cap>` (numerics.rs 98). -/
structure AbsoluteBlockOffset (c : TagCapacity) where
val : Nat
deriving DecidableEq, Repr

/-- `AbsoluteBlockOffset::new` (numerics.rs 102-108). -/
def AbsoluteBlockOffset.new (c : TagCapacity) (block_offset : Nat) :
    Option (AbsoluteBlockOffset c) :=
if block_offset < c.max_blocks then some ⟨block_offset⟩ else none

/-- `SectorBlockOffset<Cap>` (numerics.rs 136). -/
structure SectorBlockOffset (c : TagCapacity) where
val : Nat
deriving DecidableEq, Repr

/-- `AbsoluteBlockOffset::sector_offset` (numerics.rs 111-113):
`SectorBlockOffset::raw(self.0 - self.0 % 4)`; the `u8` subtraction
cannot underflow, so `Nat` subtraction matches it. -/
def AbsoluteBlockOffset.sector_offset {c : TagCapacity}
    (a : AbsoluteBlockOffset c) : SectorBlockOffset c :=
⟨a.val - a.val % 4⟩

/-- `AbsoluteBlockOffset::block_within_sector` (numerics.rs 116-118):
`BlockOffset(self.0 % 4)` — built with the bare constructor, without
the `< 3` check of `BlockOffset::new`. -/
def AbsoluteBlockOffset.block_within_sector {c : TagCapacity}
    (a : AbsoluteBlockOffset c) : BlockOffset :=
⟨a.val % 4⟩

/-- `SectorBlockOffset::new` (numerics.rs 139-145). -/
def SectorBlockOffset.new (c : TagCapacity) (block_offset : Nat) :
    Option (SectorBlockOffset c) :=
if block_offset < c.max_blocks ∧ block_offset % 4 = 0 then
  some ⟨block_offset⟩
else none

/-- `SectorBlockOffset::sector_trailer` (numerics.rs 147-149):
`AbsoluteBlockOffset::raw(self.0 + 3)`; `u8` addition, wrapping. -/
def SectorBlockOffset.sector_trailer {c : TagCapacity}
    (s : SectorBlockOffset c) : AbsoluteBlockOffset c :=
⟨(s.val + 3) % 256⟩

/-- `impl From<SectorBlockOffset<Cap>> for SectorNumber<Cap>`
(numerics.rs 162-166): `SectorNumber::raw(block_offset.0 / 4)`. -/
def SectorBlockOffset.toSectorNumber {c : TagCapacity}
    (s : SectorBlockOffset c) : SectorNumber c :=
⟨s.val / 4⟩

/-- `impl Add<BlockOffset> for SectorBlockOffset<Cap>`
(numerics.rs 168-176): `AbsoluteBlockOffset::raw(lhs + rhs)`; `u8`
addition, wrapping. -/
def SectorBlockOffset.addBlockOffset {c : TagCapacity}
    (s : SectorBlockOffset c) (o : BlockOffset) : AbsoluteBlockOffset c :=
⟨(s.val + o.val) % 256⟩

/-- Embeds `impl<CapF, CapT> From<SectorNumber<CapF>> for
SectorBlockOffset<CapT>` (numerics.rs 178-186).  Its body is
`sector_number.into().into()`: the inner `.into()` resolves (via the
where-clause) to the value-preserving widening
`SectorNumber<CapF> → SectorNumber<CapT>`, and the outer `.into()`
resolves to this very impl instantiated at `CapF := CapT` — the impl
re-enters itself unconditionally, and no other impl can serve as a base
case.  The unbounded runtime recursion is embedded with an explicit
`fuel` bound on the call depth; the carried `u8` value is unchanged by
the widening step. -/
def sectorNumberIntoSectorBlockOffset :
    Nat → (c : TagCapacity) → Nat → Option (SectorBlockOffset c)
| 0, _, _ => none
| fuel + 1, c, n => sectorNumberIntoSectorBlockOffset fuel c n

/-!  The protocol layer, from `src/lib.rs`. -/

/-- `KeyOption` (lib.rs 29-32). -/
inductive KeyOption where
| keyA : KeyOption
| keyB : KeyOption
deriving DecidableEq, Repr

/-- The opcode chosen by `authenticate_sector` from its `key_option`
argument (lib.rs 54-57). -/
def KeyOption.cmd : KeyOption → Nat
| .keyA => 0x60
| .keyB => 0x61

/-- One call to `NFCTag::transceive` as the core performs it: the
request bytes sent to the tag and the length of the response buffer
handed to the transport. -/
structure Exchange where
request : List Nat
respLen : Nat
deriving DecidableEq, Repr

/-- The transport capability (`NFCTag::transceive`, lib.rs 24): given
the request bytes and the response-buffer length it either fails with a
transport-defined error or returns the byte count together with the
bytes it wrote into the buffer. -/
def Transceive (ε : Type) : Type :=
List Nat → Nat → Except ε (Nat × List Nat)

/-- `MifareTag::new` (lib.rs 41-48): accepts the tag iff its id has
length 4 or 7; the `MifareTag` state the core keeps is its tag id (the
transport itself is threaded separately as a function). -/
def MifareTag.new (tag_id : List Nat) : Option (List Nat) :=
if tag_id.length = 4 ∨ tag_id.length = 7 then some tag_id else none

/-- The 15-byte `auth_cmd_buf` of `authenticate_sector` (lib.rs 59-68):
`[cmd, sector_offset, key[0..6], tag_id[0..4], 0, 0, 0]`, with bytes
12..15 overwritten by `tag_id[4..7]` when the id is 7 bytes long. -/
def authCmdBuf (cmd soff : Nat) (key : Fin 6 → Nat) (tag_id : List Nat) :
    List Nat :=
let buf : List Nat :=
  [cmd, soff, key 0, key 1, key 2, key 3, key 4, key 5,
   tag_id.getD 0 0, tag_id.getD 1 0, tag_id.getD 2 0, tag_id.getD 3 0,
   0, 0, 0]
if tag_id.length = 7 then
  ((buf.set 12 (tag_id.getD 4 0)).set 13 (tag_id.getD 5 0)).set 14
    (tag_id.getD 6 0)
else buf

/-- The `auth_cmd` slice sent by `authenticate_sector` (lib.rs 69-73):
the first 12 bytes of the buffer for a 4-byte id, the whole buffer for
a 7-byte id; any other length is `unreachable!()`, embedded as
`none`. -/
def authCmd (cmd soff : Nat) (key : Fin 6 → Nat) (tag_id : List Nat) :
    Option (List Nat) :=
if tag_id.length = 4 then some ((authCmdBuf cmd soff key tag_id).take 12)
else if tag_id.length = 7 then some (authCmdBuf cmd soff key tag_id)
else none

/-- `AuthenticatedSector` (lib.rs 90-93): the bound sector-start offset
together with the borrowed tag state (its id). -/
structure AuthenticatedSector where
sector_offset : SectorBlockOffset .cap4K
tag_id : List Nat
deriving DecidableEq, Repr

/-- `MifareTag::authenticate_sector` (lib.rs 51-80), with the incoming
sector number already converted to its `SectorBlockOffset4K` (the
`SN: Into<SectorBlockOffset4K>` bound); returns the transceive calls it
performed together with its result, or `none` on the `unreachable!()`
branch.  The response buffer is `[0u8; 16]` (lib.rs 75). -/
def MifareTag.authenticate_sector {ε : Type} (tc : Transceive ε)
    (tag_id : List Nat) (sector_offset : SectorBlockOffset .cap4K)
    (key_option : KeyOption) (key : Fin 6 → Nat) :
    Option (List Exchange × Except ε AuthenticatedSector) :=
match authCmd key_option.cmd sector_offset.val key tag_id with
| none => none
| some auth_cmd =>
  match tc auth_cmd 16 with
  | .error e => some ([⟨auth_cmd, 16⟩], .error e)
  | .ok _ => some ([⟨auth_cmd, 16⟩], .ok ⟨sector_offset, tag_id⟩)

/-- `AuthenticatedSector::read_block` (lib.rs 99-103): sends
`[0x30, self.sector_offset + offset]` with the caller's buffer (of
length `bufLen`); returns the post-call handle state, the transceive
calls performed and the result. -/
def AuthenticatedSector.read_block {ε : Type} (tc : Transceive ε)
    (a : AuthenticatedSector) (offset : BlockOffset) (bufLen : Nat) :
    AuthenticatedSector × List Exchange × Except ε Unit :=
let read_cmd : List Nat :=
  [0x30, (a.sector_offset.addBlockOffset offset).val]
match tc read_cmd bufLen with
| .error e => (a, [⟨read_cmd, bufLen⟩], .error e)
| .ok _ => (a, [⟨read_cmd, bufLen⟩], .ok ())

/-- `AuthenticatedSector::write_block_raw` (lib.rs 105-114): sends the
18-byte command `[0xA0, offset, data[0..16]]` with a 16-byte response
buffer. -/
def AuthenticatedSector.write_block_raw {ε : Type} (tc : Transceive ε)
    (a : AuthenticatedSector) (offset : AbsoluteBlockOffset .cap4K)
    (data : Fin 16 → Nat) :
    AuthenticatedSector × List Exchange × Except ε Unit :=
let write_cmd : List Nat := 0xA0 :: offset.val :: List.ofFn data
match tc write_cmd 16 with
| .error e => (a, [⟨write_cmd, 16⟩], .error e)
| .ok _ => (a, [⟨write_cmd, 16⟩], .ok ())

/-- `AuthenticatedSector::write_block` (lib.rs 121-124):
`write_block_raw` at `self.sector_offset + offset`. -/
def AuthenticatedSector.write_block {ε : Type} (tc : Transceive ε)
    (a : AuthenticatedSector) (offset : BlockOffset)
    (data : Fin 16 → Nat) :
    AuthenticatedSector × List Exchange × Except ε Unit :=
a.write_block_raw tc (a.sector_offset.addBlockOffset offset) data

/-- `AuthenticatedSector::write_keys` (lib.rs 131-134):
`write_block_raw` at `self.sector_offset.sector_trailer()`. -/
def AuthenticatedSector.write_keys {ε : Type} (tc : Transceive ε)
    (a : AuthenticatedSector) (data : Fin 16 → Nat) :
    AuthenticatedSector × List Exchange × Except ε Unit :=
a.write_block_raw tc a.sector_offset.sector_trailer data

/-!  Obtainable address values.

Which values of the four address types a client of the crate can hold:
everything produced by the public constructors, conversions and
arithmetic of `numerics.rs`.  (The conversion embedded by
`sectorNumberIntoSectorBlockOffset` never returns, so it contributes no
values; `SectorNumber::raw`, `AbsoluteBlockOffset::raw`,
`SectorBlockOffset::raw` are private.) -/

/-- A value of one of the four address types, tagged by its type. -/
inductive AddrVal where
| sn (c : TagCapacity) (v : SectorNumber c)
| bo (v : BlockOffset)
| abo (c : TagCapacity) (v : AbsoluteBlockOffset c)
| sbo (c : TagCapacity) (v : SectorBlockOffset c)

/-- The address values obtainable through the crate's public
interface, each constructor quoting the public operation that
produces the value. -/
inductive Obtainable : AddrVal → Prop where
| snNew (c : TagCapacity) (n : Nat) (v : SectorNumber c)
    (h : SectorNumber.new c n = some v) : Obtainable (.sn c v)
| snWiden (v : SectorNumber .cap1K) (h : Obtainable (.sn .cap1K v)) :
    Obtainable (.sn .cap4K v.widen)
| snOfSbo (c : TagCapacity) (s : SectorBlockOffset c)
    (h : Obtainable (.sbo c s)) : Obtainable (.sn c s.toSectorNumber)
| boNew (n : Nat) (v : BlockOffset) (h : BlockOffset.new n = some v) :
    Obtainable (.bo v)
| boWithin (c : TagCapacity) (a : AbsoluteBlockOffset c)
    (h : Obtainable (.abo c a)) : Obtainable (.bo a.block_within_sector)
| aboNew (c : TagCapacity) (n : Nat) (v : AbsoluteBlockOffset c)
    (h : AbsoluteBlockOffset.new c n = some v) : Obtainable (.abo c v)
| aboAdd (c : TagCapacity) (s : SectorBlockOffset c) (o : BlockOffset)
    (hs : Obtainable (.sbo c s)) (ho : Obtainable (.bo o)) :
    Obtainable (.abo c (s.addBlockOffset o))
| aboTrailer (c : TagCapacity) (s : SectorBlockOffset c)
    (hs : Obtainable (.sbo c s)) : Obtainable (.abo c s.sector_trailer)
| sboNew (c : TagCapacity) (n : Nat) (v : SectorBlockOffset c)
    (h : SectorBlockOffset.new c n = some v) : Obtainable (.sbo c v)
| sboOfAbo (c : TagCapacity) (a : AbsoluteBlockOffset c)
    (h : Obtainable (.abo c a)) : Obtainable (.sbo c a.sector_offset)

/-!  Inversion lemmas for the validating constructors. -/

theorem sectorNumber_new_eq_some {c : TagCapacity} {n : Nat}
    {v : SectorNumber c} (h : SectorNumber.new c n = some v) :
    v.val = n ∧ n < c.max_sectors := by
  unfold SectorNumber.new at h
  split at h
  · cases h
    exact ⟨rfl, by assumption⟩
  · cases h

theorem blockOffset_new_eq_some {n : Nat} {v : BlockOffset}
    (h : BlockOffset.new n = some v) : v.val = n ∧ n < 3 := by
  unfold BlockOffset.new at h
  split at h
  · cases h
    exact ⟨rfl, by assumption⟩
  · cases h

theorem absoluteBlockOffset_new_eq_some {c : TagCapacity} {n : Nat}
    {v : AbsoluteBlockOffset c} (h : AbsoluteBlockOffset.new c n = some v) :
    v.val = n ∧ n < c.max_blocks := by
  unfold AbsoluteBlockOffset.new at h
  split at h
  · cases h
    exact ⟨rfl, by assumption⟩
  · cases h

theorem sectorBlockOffset_new_eq_some {c : TagCapacity} {n : Nat}
    {v : SectorBlockOffset c} (h : SectorBlockOffset.new c n = some v) :
    v.val = n ∧ n < c.max_blocks ∧ n % 4 = 0 := by
  unfold SectorBlockOffset.new at h
  split at h
  · cases h
    next hc => exact ⟨rfl, hc.1, hc.2⟩
  · cases h

/-!  The range invariant actually maintained by the crate.

For sector numbers, absolute block offsets and sector-start offsets it
is exactly the predicate the validating constructor checks; for
`BlockOffset` the crate only maintains the weaker bound `val ≤ 3`,
because `block_within_sector` builds `BlockOffset(n % 4)` without the
`< 3` check. -/

/-- The range each address type's obtainable values actually stay in. -/
def rangeInvLeaky : AddrVal → Prop
| .sn c v => v.val < c.max_sectors
| .bo v => v.val ≤ 3
| .abo c v => v.val < c.max_blocks
| .sbo c v => v.val < c.max_blocks ∧ v.val % 4 = 0

theorem max_sectors_le_256 (c : TagCapacity) : c.max_sectors ≤ 256 :=
Nat.le_of_lt (Nat.mod_lt _ (by decide))

theorem obtainable_inv : ∀ a : AddrVal, Obtainable a → rangeInvLeaky a := by
  intro a h
  induction h with
  | snNew c n v h =>
    obtain ⟨hv, hlt⟩ := sectorNumber_new_eq_some h
    simpa [rangeInvLeaky, hv] using hlt
  | snWiden v _ ih =>
    simp only [rangeInvLeaky] at ih ⊢
    revert ih
    show v.val < TagCapacity.max_sectors .cap1K →
      v.widen.val < TagCapacity.max_sectors .cap4K
    simp [SectorNumber.widen, TagCapacity.max_sectors, TagCapacity.bytes]
    omega
  | snOfSbo c s _ ih =>
    simp only [rangeInvLeaky, SectorBlockOffset.toSectorNumber] at ih ⊢
    cases c <;>
      simp_all [TagCapacity.max_sectors, TagCapacity.max_blocks,
        TagCapacity.bytes] <;> omega
  | boNew n v h =>
    obtain ⟨hv, hlt⟩ := blockOffset_new_eq_some h
    simp only [rangeInvLeaky]
    omega
  | boWithin c a _ _ =>
    simp only [rangeInvLeaky, AbsoluteBlockOffset.block_within_sector]
    omega
  | aboNew c n v h =>
    obtain ⟨hv, hlt⟩ := absoluteBlockOffset_new_eq_some h
    simpa [rangeInvLeaky, hv] using hlt
  | aboAdd c s o _ _ ihs iho =>
    simp only [rangeInvLeaky, SectorBlockOffset.addBlockOffset] at ihs iho ⊢
    cases c <;>
      simp_all [TagCapacity.max_blocks, TagCapacity.bytes] <;> omega
  | aboTrailer c s _ ihs =>
    simp only [rangeInvLeaky, SectorBlockOffset.sector_trailer] at ihs ⊢
    cases c <;>
      simp_all [TagCapacity.max_blocks, TagCapacity.bytes] <;> omega
  | sboNew c n v h =>
    obtain ⟨hv, hlt, hmod⟩ := sectorBlockOffset_new_eq_some h
    simp only [rangeInvLeaky]
    omega
  | sboOfAbo c a _ ih =>
    simp only [rangeInvLeaky, AbsoluteBlockOffset.sector_offset] at ih ⊢
    omega

/-- Every obtainable `BlockOffset` value is at most 3. -/
theorem obtainable_bo_le_three {o : BlockOffset}
    (h : Obtainable (.bo o)) : o.val ≤ 3 :=
obtainable_inv _ h

/-- `BlockOffset` with value 3 is obtainable: decompose the valid 1 KiB
absolute block 3 (a sector trailer) with `block_within_sector`. -/
theorem obtainable_blockOffset_three :
    Obtainable (.bo (⟨3⟩ : BlockOffset)) := by
  have h3 : AbsoluteBlockOffset.new .cap1K 3 =
      some (⟨3⟩ : AbsoluteBlockOffset .cap1K) := by decide
  have ha := Obtainable.aboNew .cap1K 3 ⟨3⟩ h3
  have hb := Obtainable.boWithin .cap1K ⟨3⟩ ha
  simpa [AbsoluteBlockOffset.block_within_sector] using hb

/-!  Claim theorems. -/

/-- C1: the claim says `AbsoluteBlockOffset::<Cap4K>::new(n)` is `Some`
iff `n < 256` (`maxBlocks = bytes/16 = 256` for 4 KiB), so `new(0)`
should be `Some`.  The code computes `max_blocks()` as
`(4096 / 16) as u8`, and the cast truncates 256 to 0, so `new` (and
likewise `SectorBlockOffset::<Cap4K>::new`) rejects every input — here
evaluated at the failing input `n = 0`.  The `SectorNumber` and
`BlockOffset` halves of the claim do hold (also evaluated here over the
full `u8` range). -/
theorem C1_cap4K_max_blocks_truncated_to_zero :
    TagCapacity.max_blocks .cap4K = 0 ∧
    AbsoluteBlockOffset.new .cap4K 0 = none ∧
    SectorBlockOffset.new .cap4K 0 = none ∧
    (∀ n : Fin 256, (AbsoluteBlockOffset.new .cap4K n.val).isSome = false) ∧
    (∀ n : Fin 256,
      (SectorNumber.new .cap1K n.val).isSome = decide (n.val < 16) ∧
      (SectorNumber.new .cap4K n.val).isSome = decide (n.val < 64) ∧
      (AbsoluteBlockOffset.new .cap1K n.val).isSome = decide (n.val < 64) ∧
      (SectorBlockOffset.new .cap1K n.val).isSome =
        decide (n.val < 64 ∧ n.val % 4 = 0) ∧
      (BlockOffset.new n.val).isSome = decide (n.val ≤ 2)) := by
  set_option maxRecDepth 4096 in
  refine ⟨by decide, by decide, by decide, by decide, by decide⟩

/-- C2: the claim says the conversion from a sector number to a
sector-start offset is total and yields the value `4 * n`.  The `From`
impl embedded by `sectorNumberIntoSectorBlockOffset` re-enters itself
unconditionally (its body is `sector_number.into().into()` and the
outer `.into()` resolves to the same impl), so under any finite call
depth it never produces a value — in particular it never produces
`4 * n`, and the multiplication by 4 appears nowhere in the source. -/
theorem C2_sectorNumber_to_sectorBlockOffset_diverges :
    ∀ (fuel : Nat) (c : TagCapacity) (n : Nat),
      sectorNumberIntoSectorBlockOffset fuel c n = none := by
  intro fuel
  induction fuel with
  | zero => intro c n; rfl
  | succ k ih => intro c n; exact ih c n

/-- C3 counterexample: `BlockOffset` with value 3 is obtainable through
the public interface — `AbsoluteBlockOffset::<Cap1K>::new(3)` succeeds
and its `block_within_sector()` is `BlockOffset(3)` — and 3 violates
the claimed range `[0, 2]`. -/
theorem C3_counterexample_obtainable_blockOffset_out_of_range :
    Obtainable (.bo (⟨3⟩ : BlockOffset)) ∧ ¬ ((3 : Nat) ≤ 2) :=
⟨obtainable_blockOffset_three, by decide⟩

/-- C3 amended: every obtainable sector number, absolute block offset
and sector-start offset satisfies its type's range predicate, but an
obtainable `BlockOffset` is only guaranteed to lie in `[0, 3]`:
`block_within_sector` applied to a trailer address yields
`BlockOffset(3)`, bypassing the `< 3` check of `BlockOffset::new`. -/
theorem C3_amended_obtainable_values_in_range (a : AddrVal)
    (h : Obtainable a) : rangeInvLeaky a :=
obtainable_inv a h

/-- Witness for C3's amended theorem at the concrete obtainable value
`BlockOffset::new(1)`. -/
theorem C3_amended_witness :
    BlockOffset.new 1 = some ⟨1⟩ ∧ rangeInvLeaky (.bo (⟨1⟩ : BlockOffset)) :=
⟨by decide, C3_amended_obtainable_values_in_range _
  (Obtainable.boNew 1 ⟨1⟩ (by decide))⟩

/-- C8: round-trip decomposition — for every absolute block offset
valid for its capacity, recomposing `sector_offset` with
`block_within_sector` through the `Add` impl gives back the original
offset. -/
theorem C8_sector_decomposition_round_trip (c : TagCapacity)
    (a : AbsoluteBlockOffset c) (h : a.val < c.max_blocks) :
    a.sector_offset.addBlockOffset a.block_within_sector = a := by
  have hlt : a.val < 256 :=
    Nat.lt_of_lt_of_le h (Nat.le_trans (Nat.le_of_lt (Nat.mod_lt _
      (by decide))) (Nat.le_refl 256))
  cases a with
  | mk v =>
    simp only [AbsoluteBlockOffset.sector_offset,
      AbsoluteBlockOffset.block_within_sector,
      SectorBlockOffset.addBlockOffset, AbsoluteBlockOffset.mk.injEq]
    simp only [AbsoluteBlockOffset.val] at hlt
    omega

/-- Witness for C8 at the concrete valid 1 KiB absolute block 7. -/
theorem C8_round_trip_witness :
    (7 : Nat) < TagCapacity.max_blocks .cap1K ∧
    (⟨7⟩ : AbsoluteBlockOffset .cap1K).sector_offset.addBlockOffset
      (⟨7⟩ : AbsoluteBlockOffset .cap1K).block_within_sector = ⟨7⟩ :=
⟨by decide, C8_sector_decomposition_round_trip .cap1K ⟨7⟩ (by decide)⟩

theorem authCmd_four_bytes (cmd soff : Nat) (key : Fin 6 → Nat)
    (t0 t1 t2 t3 : Nat) :
    authCmd cmd soff key [t0, t1, t2, t3] =
      some [cmd, soff, key 0, key 1, key 2, key 3, key 4, key 5,
            t0, t1, t2, t3] := rfl

theorem authCmd_seven_bytes (cmd soff : Nat) (key : Fin 6 → Nat)
    (t0 t1 t2 t3 t4 t5 t6 : Nat) :
    authCmd cmd soff key [t0, t1, t2, t3, t4, t5, t6] =
      some [cmd, soff, key 0, key 1, key 2, key 3, key 4, key 5,
            t0, t1, t2, t3, t4, t5, t6] := rfl

/-- C5: `authenticate_sector` performs exactly one exchange whose
request is the opcode (`0x60` for key A, `0x61` for key B), the
sector-start byte, the 6 key bytes, then the identifier bytes — 12
bytes in total for a 4-byte identifier (no trailing identifier-slot
bytes transmitted) and 15 bytes for a 7-byte identifier — with a
16-byte response buffer; in particular, with identifier
`[1, 2, 3, 4]`, sector-start 8, key slot A and key `[0xFF; 6]` the
request is exactly `[0x60, 8, 0xFF×6, 1, 2, 3, 4]`. -/
theorem C5_authenticate_request_bytes (ε : Type) (tc : Transceive ε) :
    (∀ (s : SectorBlockOffset .cap4K) (ko : KeyOption)
        (key : Fin 6 → Nat) (t0 t1 t2 t3 : Nat),
      (MifareTag.authenticate_sector tc [t0, t1, t2, t3] s ko key).map
          Prod.fst =
        some [⟨[ko.cmd, s.val, key 0, key 1, key 2, key 3, key 4, key 5,
                t0, t1, t2, t3], 16⟩]) ∧
    (∀ (s : SectorBlockOffset .cap4K) (ko : KeyOption)
        (key : Fin 6 → Nat) (t0 t1 t2 t3 t4 t5 t6 : Nat),
      (MifareTag.authenticate_sector tc [t0, t1, t2, t3, t4, t5, t6] s ko
          key).map Prod.fst =
        some [⟨[ko.cmd, s.val, key 0, key 1, key 2, key 3, key 4, key 5,
                t0, t1, t2, t3, t4, t5, t6], 16⟩]) ∧
    (MifareTag.authenticate_sector tc [0x01, 0x02, 0x03, 0x04] ⟨8⟩ .keyA
        (fun _ => 0xFF)).map Prod.fst =
      some [⟨[0x60, 8, 0xFF, 0xFF, 0xFF, 0xFF, 0xFF, 0xFF,
              0x01, 0x02, 0x03, 0x04], 16⟩] := by
  refine ⟨?_, ?_, ?_⟩
  · intro s ko key t0 t1 t2 t3
    unfold MifareTag.authenticate_sector
    rw [authCmd_four_bytes]
    dsimp only
    cases tc [ko.cmd, s.val, key 0, key 1, key 2, key 3, key 4, key 5,
      t0, t1, t2, t3] 16 <;> rfl
  · intro s ko key t0 t1 t2 t3 t4 t5 t6
    unfold MifareTag.authenticate_sector
    rw [authCmd_seven_bytes]
    dsimp only
    cases tc [ko.cmd, s.val, key 0, key 1, key 2, key 3, key 4, key 5,
      t0, t1, t2, t3, t4, t5, t6] 16 <;> rfl
  · unfold MifareTag.authenticate_sector
    rw [show authCmd KeyOption.keyA.cmd
        (SectorBlockOffset.val (c := .cap4K) ⟨8⟩) (fun _ => 0xFF)
        [0x01, 0x02, 0x03, 0x04] =
      some [0x60, 8, 0xFF, 0xFF, 0xFF, 0xFF, 0xFF, 0xFF,
            0x01, 0x02, 0x03, 0x04] from rfl]
    dsimp only
    cases tc [0x60, 8, 0xFF, 0xFF, 0xFF, 0xFF, 0xFF, 0xFF,
      0x01, 0x02, 0x03, 0x04] 16 <;> rfl

/-- C6: `read_block` on a handle bound to sector-start `s` with offset
`o` issues exactly the 2-byte request `[0x30, s + o]` and hands the
caller's buffer (of length `bufLen`) to the transport. -/
theorem C6_read_block_request_bytes (ε : Type) (tc : Transceive ε)
    (a : AuthenticatedSector) (o : BlockOffset) (bufLen : Nat)
    (h : a.sector_offset.val + o.val < 256) :
    (a.read_block tc o bufLen).2.1 =
      [⟨[0x30, a.sector_offset.val + o.val], bufLen⟩] := by
  unfold AuthenticatedSector.read_block
  simp only [SectorBlockOffset.addBlockOffset, Nat.mod_eq_of_lt h]
  cases tc [0x30, a.sector_offset.val + o.val] bufLen <;> rfl

/-- Witness for C6 at sector-start 8 and offset 1: the request is
`[0x30, 9]` with a 16-byte buffer. -/
theorem C6_read_block_witness :
    (8 : Nat) + 1 < 256 ∧
    (AuthenticatedSector.read_block
        (fun _ _ => Except.error () : Transceive Unit)
        ⟨⟨8⟩, [1, 2, 3, 4]⟩ ⟨1⟩ 16).2.1 = [⟨[0x30, 9], 16⟩] :=
⟨by decide, C6_read_block_request_bytes Unit
  (fun _ _ => Except.error ()) ⟨⟨8⟩, [1, 2, 3, 4]⟩ ⟨1⟩ 16 (by decide)⟩

/-- C7: `write_keys` on a handle bound to sector-start `s` issues
exactly the 18-byte request `[0xA0, s + 3, data[0..16]]` with a 16-byte
response buffer, and the trailer address it uses is always `s + 3`. -/
theorem C7_write_keys_request_bytes (ε : Type) (tc : Transceive ε)
    (a : AuthenticatedSector) (data : Fin 16 → Nat)
    (h : a.sector_offset.val + 3 < 256) :
    (a.write_keys tc data).2.1 =
      [⟨0xA0 :: (a.sector_offset.val + 3) :: List.ofFn data, 16⟩] ∧
    (0xA0 :: (a.sector_offset.val + 3) :: List.ofFn data).length = 18 ∧
    a.sector_offset.sector_trailer.val = a.sector_offset.val + 3 := by
  refine ⟨?_, by simp, by
    simp [SectorBlockOffset.sector_trailer, Nat.mod_eq_of_lt h]⟩
  unfold AuthenticatedSector.write_keys AuthenticatedSector.write_block_raw
  simp only [SectorBlockOffset.sector_trailer, Nat.mod_eq_of_lt h]
  cases tc (0xA0 :: (a.sector_offset.val + 3) :: List.ofFn data) 16 <;> rfl

/-- Witness for C7 at sector-start 8: the request begins
`[0xA0, 11, ...]` and carries the 16 data bytes. -/
theorem C7_write_keys_witness :
    (8 : Nat) + 3 < 256 ∧
    ((AuthenticatedSector.write_keys
        (fun _ _ => Except.error () : Transceive Unit)
        ⟨⟨8⟩, [1, 2, 3, 4]⟩ (fun _ => 0)).2.1 =
      [⟨0xA0 :: 11 :: List.ofFn (fun _ : Fin 16 => (0 : Nat)), 16⟩] ∧
    (0xA0 :: (11 : Nat) :: List.ofFn (fun _ : Fin 16 => (0 : Nat))).length
        = 18 ∧
    (SectorBlockOffset.sector_trailer (c := .cap4K) ⟨8⟩).val = 11) :=
⟨by decide, C7_write_keys_request_bytes Unit (fun _ _ => Except.error ())
  ⟨⟨8⟩, [1, 2, 3, 4]⟩ (fun _ => 0) (by decide)⟩

/-- C4 counterexample: `BlockOffset` with value 3 is obtainable through
the public interface (`AbsoluteBlockOffset::<Cap1K>::new(3)` followed
by `block_within_sector`), and passing it to `write_block` on a handle
bound to sector-start 8 issues a command whose address byte is
11 = 8 + 3 — exactly the sector trailer the claim rules out. -/
theorem C4_counterexample_write_block_reaches_trailer :
    Obtainable (.bo (⟨3⟩ : BlockOffset)) ∧
    (AuthenticatedSector.write_block
        (fun _ _ => Except.error () : Transceive Unit)
        ⟨⟨8⟩, [1, 2, 3, 4]⟩ ⟨3⟩ (fun _ => 0)).2.1 =
      [⟨0xA0 :: 11 :: List.ofFn (fun _ : Fin 16 => (0 : Nat)), 16⟩] ∧
    (11 : Nat) = 8 + 3 :=
⟨obtainable_blockOffset_three, rfl, rfl⟩

/-- C4 amended: for every block offset obtained from
`BlockOffset::new` (so with value in `[0, 2]`) and every handle whose
bound sector-start is a multiple of 4 below 256, the address byte of
the one command `write_block` issues is `s + o`, which is never
congruent to 3 mod 4 — the trailer stays unreachable on that path.
The restriction to offsets from `BlockOffset::new` is forced by the
counterexample: `block_within_sector` can hand `write_block` the value
3, which then addresses the trailer `s + 3`. -/
theorem C4_amended_write_block_avoids_trailer (ε : Type)
    (tc : Transceive ε) (a : AuthenticatedSector) (n : Nat)
    (o : BlockOffset) (ho : BlockOffset.new n = some o)
    (hs4 : a.sector_offset.val % 4 = 0) (hs : a.sector_offset.val < 256)
    (data : Fin 16 → Nat) :
    (a.write_block tc o data).2.1 =
      [⟨0xA0 :: (a.sector_offset.val + o.val) :: List.ofFn data, 16⟩] ∧
    (a.sector_offset.val + o.val) % 4 ≠ 3 := by
  obtain ⟨hv, hlt⟩ := blockOffset_new_eq_some ho
  have hsum : a.sector_offset.val + o.val < 256 := by omega
  constructor
  · unfold AuthenticatedSector.write_block
      AuthenticatedSector.write_block_raw
    simp only [SectorBlockOffset.addBlockOffset, Nat.mod_eq_of_lt hsum]
    cases tc (0xA0 :: (a.sector_offset.val + o.val) :: List.ofFn data)
      16 <;> rfl
  · omega

/-- Witness for C4's amended theorem at sector-start 8 and
`BlockOffset::new(1)`: the issued address byte is 9, not a trailer. -/
theorem C4_amended_witness :
    BlockOffset.new 1 = some ⟨1⟩ ∧ (8 : Nat) % 4 = 0 ∧ (8 : Nat) < 256 ∧
    ((AuthenticatedSector.write_block
        (fun _ _ => Except.error () : Transceive Unit)
        ⟨⟨8⟩, [1, 2, 3, 4]⟩ ⟨1⟩ (fun _ => 0)).2.1 =
      [⟨0xA0 :: (8 + 1) :: List.ofFn (fun _ : Fin 16 => (0 : Nat)), 16⟩] ∧
    ((8 : Nat) + 1) % 4 ≠ 3) :=
⟨by decide, by decide, by decide,
  C4_amended_write_block_avoids_trailer Unit (fun _ _ => Except.error ())
    ⟨⟨8⟩, [1, 2, 3, 4]⟩ 1 ⟨1⟩ (by decide) (by decide) (by decide)
    (fun _ => 0)⟩

/-- C9: each of the four operations performs exactly one transport
exchange (its exchange list is a singleton), and its result is exactly
the transport's result with the payload discarded: a transport error is
returned unchanged, and transport success yields success regardless of
the reported byte count or response content (`Except.map` of a constant
function). -/
theorem C9_single_exchange_error_passthrough (ε : Type)
    (tc : Transceive ε) (tag_id : List Nat)
    (s : SectorBlockOffset .cap4K) (ko : KeyOption) (key : Fin 6 → Nat)
    (req : List Nat) (hcmd : authCmd ko.cmd s.val key tag_id = some req)
    (a : AuthenticatedSector) (o : BlockOffset) (bufLen : Nat)
    (data : Fin 16 → Nat) :
    MifareTag.authenticate_sector tc tag_id s ko key =
      some ([⟨req, 16⟩],
        (tc req 16).map fun _ => AuthenticatedSector.mk s tag_id) ∧
    (a.read_block tc o bufLen).2 =
      ([⟨[0x30, (a.sector_offset.addBlockOffset o).val], bufLen⟩],
        (tc [0x30, (a.sector_offset.addBlockOffset o).val] bufLen).map
          fun _ => ()) ∧
    (a.write_block tc o data).2 =
      ([⟨0xA0 :: (a.sector_offset.addBlockOffset o).val ::
            List.ofFn data, 16⟩],
        (tc (0xA0 :: (a.sector_offset.addBlockOffset o).val ::
            List.ofFn data) 16).map fun _ => ()) ∧
    (a.write_keys tc data).2 =
      ([⟨0xA0 :: a.sector_offset.sector_trailer.val :: List.ofFn data,
          16⟩],
        (tc (0xA0 :: a.sector_offset.sector_trailer.val ::
            List.ofFn data) 16).map fun _ => ()) := by
  refine ⟨?_, ?_, ?_, ?_⟩
  · unfold MifareTag.authenticate_sector
    rw [hcmd]
    dsimp only
    cases tc req 16 <;> rfl
  · unfold AuthenticatedSector.read_block
    dsimp only
    cases tc [0x30, (a.sector_offset.addBlockOffset o).val] bufLen <;> rfl
  · unfold AuthenticatedSector.write_block
      AuthenticatedSector.write_block_raw
    dsimp only
    cases tc (0xA0 :: (a.sector_offset.addBlockOffset o).val ::
      List.ofFn data) 16 <;> rfl
  · unfold AuthenticatedSector.write_keys
      AuthenticatedSector.write_block_raw
    dsimp only
    cases tc (0xA0 :: a.sector_offset.sector_trailer.val ::
      List.ofFn data) 16 <;> rfl

/-- Witness for C9 at concrete inputs (4-byte identifier, sector-start
8, key A, key `[0xFF; 6]`, an always-failing transport). -/
theorem C9_witness :
    authCmd KeyOption.keyA.cmd
        (SectorBlockOffset.val (c := .cap4K) ⟨8⟩) (fun _ => 0xFF)
        [1, 2, 3, 4] =
      some [0x60, 8, 0xFF, 0xFF, 0xFF, 0xFF, 0xFF, 0xFF, 1, 2, 3, 4] ∧
    (MifareTag.authenticate_sector
        (fun _ _ => Except.error () : Transceive Unit) [1, 2, 3, 4] ⟨8⟩
        .keyA (fun _ => 0xFF) =
      some ([⟨[0x60, 8, 0xFF, 0xFF, 0xFF, 0xFF, 0xFF, 0xFF, 1, 2, 3, 4],
              16⟩],
        ((fun _ _ => Except.error () : Transceive Unit)
            [0x60, 8, 0xFF, 0xFF, 0xFF, 0xFF, 0xFF, 0xFF, 1, 2, 3, 4]
            16).map
          fun _ => AuthenticatedSector.mk ⟨8⟩ [1, 2, 3, 4]) ∧
    (AuthenticatedSector.read_block
        (fun _ _ => Except.error () : Transceive Unit)
        ⟨⟨8⟩, [1, 2, 3, 4]⟩ ⟨1⟩ 16).2 =
      ([⟨[0x30, (SectorBlockOffset.addBlockOffset (c := .cap4K) ⟨8⟩
            ⟨1⟩).val], 16⟩],
        ((fun _ _ => Except.error () : Transceive Unit)
            [0x30, (SectorBlockOffset.addBlockOffset (c := .cap4K) ⟨8⟩
              ⟨1⟩).val] 16).map fun _ => ()) ∧
    (AuthenticatedSector.write_block
        (fun _ _ => Except.error () : Transceive Unit)
        ⟨⟨8⟩, [1, 2, 3, 4]⟩ ⟨1⟩ (fun _ => 0)).2 =
      ([⟨0xA0 :: (SectorBlockOffset.addBlockOffset (c := .cap4K) ⟨8⟩
            ⟨1⟩).val :: List.ofFn (fun _ : Fin 16 => (0 : Nat)), 16⟩],
        ((fun _ _ => Except.error () : Transceive Unit)
            (0xA0 :: (SectorBlockOffset.addBlockOffset (c := .cap4K)
              ⟨8⟩ ⟨1⟩).val ::
              List.ofFn (fun _ : Fin 16 => (0 : Nat))) 16).map
          fun _ => ()) ∧
    (AuthenticatedSector.write_keys
        (fun _ _ => Except.error () : Transceive Unit)
        ⟨⟨8⟩, [1, 2, 3, 4]⟩ (fun _ => 0)).2 =
      ([⟨0xA0 :: (SectorBlockOffset.sector_trailer (c := .cap4K)
            ⟨8⟩).val :: List.ofFn (fun _ : Fin 16 => (0 : Nat)), 16⟩],
        ((fun _ _ => Except.error () : Transceive Unit)
            (0xA0 :: (SectorBlockOffset.sector_trailer (c := .cap4K)
              ⟨8⟩).val ::
              List.ofFn (fun _ : Fin 16 => (0 : Nat))) 16).map
          fun _ => ())) :=
⟨rfl, C9_single_exchange_error_passthrough Unit
  (fun _ _ => Except.error ()) [1, 2, 3, 4] ⟨8⟩ .keyA (fun _ => 0xFF)
  [0x60, 8, 0xFF, 0xFF, 0xFF, 0xFF, 0xFF, 0xFF, 1, 2, 3, 4] rfl
  ⟨⟨8⟩, [1, 2, 3, 4]⟩ ⟨1⟩ 16 (fun _ => 0)⟩

/-- C10: `read_block`, `write_block` and `write_keys` leave the
handle's bound sector-start offset and tag identifier unchanged (the
returned handle state is the input state), and the address byte of the
one command each issues is `s + o` (with the offset's obtainable value
`o ≤ 3`) respectively `s + 3` — every addressed block lies in the
handle's own sector `[s, s + 3]`. -/
theorem C10_ops_stay_in_bound_sector (ε : Type) (tc : Transceive ε)
    (a : AuthenticatedSector) (o : BlockOffset)
    (ho : Obtainable (.bo o)) (hs : a.sector_offset.val ≤ 252)
    (bufLen : Nat) (data : Fin 16 → Nat) :
    (a.read_block tc o bufLen).1 = a ∧
    (a.write_block tc o data).1 = a ∧
    (a.write_keys tc data).1 = a ∧
    (a.read_block tc o bufLen).2.1 =
      [⟨[0x30, a.sector_offset.val + o.val], bufLen⟩] ∧
    (a.write_block tc o data).2.1 =
      [⟨0xA0 :: (a.sector_offset.val + o.val) :: List.ofFn data, 16⟩] ∧
    (a.write_keys tc data).2.1 =
      [⟨0xA0 :: (a.sector_offset.val + 3) :: List.ofFn data, 16⟩] ∧
    a.sector_offset.val + o.val ≤ a.sector_offset.val + 3 := by
  have hbo : o.val ≤ 3 := obtainable_bo_le_three ho
  have hsum : a.sector_offset.val + o.val < 256 := by omega
  have htr : a.sector_offset.val + 3 < 256 := by omega
  refine ⟨?_, ?_, ?_, ?_, ?_, ?_, by omega⟩
  · unfold AuthenticatedSector.read_block
    dsimp only
    cases tc [0x30, (a.sector_offset.addBlockOffset o).val] bufLen <;> rfl
  · unfold AuthenticatedSector.write_block
      AuthenticatedSector.write_block_raw
    dsimp only
    cases tc (0xA0 :: (a.sector_offset.addBlockOffset o).val ::
      List.ofFn data) 16 <;> rfl
  · unfold AuthenticatedSector.write_keys
      AuthenticatedSector.write_block_raw
    dsimp only
    cases tc (0xA0 :: a.sector_offset.sector_trailer.val ::
      List.ofFn data) 16 <;> rfl
  · unfold AuthenticatedSector.read_block
    simp only [SectorBlockOffset.addBlockOffset, Nat.mod_eq_of_lt hsum]
    cases tc [0x30, a.sector_offset.val + o.val] bufLen <;> rfl
  · unfold AuthenticatedSector.write_block
      AuthenticatedSector.write_block_raw
    simp only [SectorBlockOffset.addBlockOffset, Nat.mod_eq_of_lt hsum]
    cases tc (0xA0 :: (a.sector_offset.val + o.val) :: List.ofFn data)
      16 <;> rfl
  · unfold AuthenticatedSector.write_keys
      AuthenticatedSector.write_block_raw
    simp only [SectorBlockOffset.sector_trailer, Nat.mod_eq_of_lt htr]
    cases tc (0xA0 :: (a.sector_offset.val + 3) :: List.ofFn data)
      16 <;> rfl

/-- Witness for C10 at sector-start 8 with the obtainable offset
`BlockOffset::new(1)`. -/
theorem C10_witness :
    Obtainable (.bo (⟨1⟩ : BlockOffset)) ∧ (8 : Nat) ≤ 252 ∧
    ((AuthenticatedSector.read_block
        (fun _ _ => Except.error () : Transceive Unit)
        ⟨⟨8⟩, [1, 2, 3, 4]⟩ ⟨1⟩ 16).1 = ⟨⟨8⟩, [1, 2, 3, 4]⟩ ∧
    (AuthenticatedSector.write_block
        (fun _ _ => Except.error () : Transceive Unit)
        ⟨⟨8⟩, [1, 2, 3, 4]⟩ ⟨1⟩ (fun _ => 0)).1 = ⟨⟨8⟩, [1, 2, 3, 4]⟩ ∧
    (AuthenticatedSector.write_keys
        (fun _ _ => Except.error () : Transceive Unit)
        ⟨⟨8⟩, [1, 2, 3, 4]⟩ (fun _ => 0)).1 = ⟨⟨8⟩, [1, 2, 3, 4]⟩ ∧
    (AuthenticatedSector.read_block
        (fun _ _ => Except.error () : Transceive Unit)
        ⟨⟨8⟩, [1, 2, 3, 4]⟩ ⟨1⟩ 16).2.1 = [⟨[0x30, 8 + 1], 16⟩] ∧
    (AuthenticatedSector.write_block
        (fun _ _ => Except.error () : Transceive Unit)
        ⟨⟨8⟩, [1, 2, 3, 4]⟩ ⟨1⟩ (fun _ => 0)).2.1 =
      [⟨0xA0 :: (8 + 1) :: List.ofFn (fun _ : Fin 16 => (0 : Nat)),
        16⟩] ∧
    (AuthenticatedSector.write_keys
        (fun _ _ => Except.error () : Transceive Unit)
        ⟨⟨8⟩, [1, 2, 3, 4]⟩ (fun _ => 0)).2.1 =
      [⟨0xA0 :: (8 + 3) :: List.ofFn (fun _ : Fin 16 => (0 : Nat)),
        16⟩] ∧
    (8 : Nat) + 1 ≤ 8 + 3) := by
  have hb : Obtainable (.bo (⟨1⟩ : BlockOffset)) :=
    Obtainable.boNew 1 ⟨1⟩ (by decide)
  exact ⟨hb, by decide, C10_ops_stay_in_bound_sector Unit
    (fun _ _ => Except.error ()) ⟨⟨8⟩, [1, 2, 3, 4]⟩ ⟨1⟩ hb (by decide)
    16 (fun _ => 0)⟩

end Mifare
